import Mathlib

/-!
# PruneJuice — verification of the step-execution engine and workspace layer

Shallow embedding of the PruneJuice command-line SDLC tool (two revisions).

The first revision's orchestration core lives in
`python-implementation/prunejuice/src/prunejuice/core/executor.py`:
`StepExecutor` runs one named step (a built-in coroutine or an external
script) under a timeout and returns a `(success, output)` pair;
`Executor.execute_command` resolves a command definition, validates
arguments, builds an execution context and runs the declared step lists
sequentially, invoking cleanup steps on failure and recording start/end
events.  The second revision (`src/prunejuice/core/...`) has a SQLite
persistence layer (`database/manager.py`), a Git worktree wrapper
(`git_ops.py`) and a workspace service (`operations.py`).

Modelling conventions:

* The outside world (the command store, the filesystem, subprocesses, the
  database, git) is passed in as explicit oracle values; the control flow,
  string formatting and effect ordering of the Python functions are
  translated literally.
* Side effects are recorded in an explicit effect trace (`Effect`,
  `GitFx`), one constructor per observable action of the source.
* Python exceptions become `Except` values; functions documented never to
  raise are total.
* Python dicts keyed by strings become association lists
  (`List (String × String)`); a subscript access `d["k"]` becomes
  `dictGetStr d "k"`, which yields a `KeyError` when the key is absent.
-/

namespace PruneJuice

/-! ## Data model — `core/models.py` (first revision) -/

/-- `models.CommandArgument`: one declared argument of a command
(pydantic model; `type` and `default` are advisory). -/
structure CommandArgument where
  name : String
  required : Bool
  type : String
  default : Option String
  description : Option String
deriving Repr, DecidableEq

/-- `models.CommandDefinition`: a YAML-declared command.  The unused
pydantic field `extends` (consumed only by the loader, which is an oracle
here) is omitted. -/
structure CommandDefinition where
  name : String
  description : String
  category : String
  arguments : List CommandArgument
  environment : List (String × String)
  pre_steps : List String
  steps : List String
  post_steps : List String
  cleanup_on_failure : List String
  working_directory : Option String
  timeout : Nat
deriving Repr, DecidableEq

/-- `models.ExecutionResult`: what `Executor.execute_command` returns. -/
structure ExecutionResult where
  success : Bool
  error : Option String
  output : Option String
  artifacts_path : Option String
deriving Repr, DecidableEq

/-! ## Step runner — `core/executor.py`, class `StepExecutor` -/

/-- Outcome of awaiting a built-in step coroutine under
`asyncio.wait_for` (executor.py lines 40-48): a returned value (already
rendered by `str`), a timeout, or a raised exception (its message). -/
inductive AwaitOutcome where
  | value (result : String)
  | timedOut
  | raised (msg : String)
deriving Repr, DecidableEq

/-- Outcome of running an external step script via
`asyncio.create_subprocess_exec` (executor.py lines 82-99): process
finished with a return code and merged stdout/stderr, timed out, or an
exception was raised. -/
inductive ScriptOutcome where
  | finished (returncode : Int) (stdout : String)
  | timedOut
  | raised (msg : String)
deriving Repr, DecidableEq

/-- The world a single `StepExecutor.execute` invocation sees:
which built-in steps are registered and how each behaves when awaited,
which files exist, and how the subprocess at a script path behaves.
Built-in steps mutate the context dict in the source (e.g. adding
`worktree_path`); that only influences later invocations, which is
absorbed by giving the orchestrator a fresh `StepEnv` per invocation. -/
structure StepEnv where
  builtinRun : String → Option AwaitOutcome
  fileExists : String → Bool
  scriptRun : String → ScriptOutcome

/-- The execution context assembled by `Executor.execute_command`
(executor.py lines 162-170).  The `event_id` entry added afterwards is
read only by built-in steps, which are behavioural oracles here. -/
structure Context where
  command : CommandDefinition
  project_path : String
  session_id : String
  artifact_dir : String
  args : List (String × String)
  environment : List (String × String)
  working_directory : String
deriving Repr, DecidableEq

/-- The two candidate script paths for a custom step
(executor.py lines 51-54), in probe order. -/
def stepScriptPaths (ctx : Context) (step_name : String) : List String :=
  [ctx.project_path ++ "/.prj/steps/" ++ step_name ++ ".py",
   ctx.project_path ++ "/.prj/steps/" ++ step_name ++ ".sh"]

namespace StepExecutor

/-- `StepExecutor._execute_script` (executor.py lines 62-99).  The
environment-variable flattening of primitive context values and the
interpreter choice parameterise the subprocess, whose behaviour is the
`scriptRun` oracle; the returned pair is translated literally. -/
def executeScript (env : StepEnv) (script_path : String) (timeout : Nat) :
    Bool × String :=
  match env.scriptRun script_path with
  | .finished rc stdout => (rc == 0, stdout)
  | .timedOut => (false, s!"Script timed out after {timeout}s")
  | .raised msg => (false, s!"Script execution failed: {msg}")

/-- `StepExecutor.execute` (executor.py lines 30-60): run a built-in step
if one is registered under the name, else probe for a project-local
script, else report the step as not found. -/
def execute (env : StepEnv) (step_name : String) (ctx : Context)
    (timeout : Nat) : Bool × String :=
  match env.builtinRun step_name with
  | some (.value result) => (true, result)
  | some .timedOut => (false, s!"Step '{step_name}' timed out after {timeout}s")
  | some (.raised msg) => (false, s!"Step '{step_name}' failed: {msg}")
  | none =>
    match (stepScriptPaths ctx step_name).find? env.fileExists with
    | some step_path => executeScript env step_path timeout
    | none => (false, s!"Step '{step_name}' not found")

end StepExecutor

/-! ## Argument validation and context assembly — `core/executor.py` -/

/-- The keys of a Python dict modelled as an association list. -/
def dictKeys (d : List (String × String)) : List String := d.map Prod.fst

/-- `Executor._validate_arguments` (executor.py lines 248-256): collect an
error for every required argument name absent from the supplied map. -/
def validate_arguments (command : CommandDefinition)
    (args : List (String × String)) : List String :=
  command.arguments.foldl
    (fun errors arg_def =>
      if arg_def.required && !((dictKeys args).contains arg_def.name) then
        errors ++ [s!"Required argument '{arg_def.name}' missing"]
      else errors)
    []

/-- Python `{**base, **override}`: keys of `base` in order with values
overridden by `override`, then the new keys of `override`. -/
def dictMerge (base override : List (String × String)) :
    List (String × String) :=
  base.map (fun kv =>
    match override.lookup kv.1 with
    | some v => (kv.1, v)
    | none => kv)
  ++ override.filter (fun kv => !((dictKeys base).contains kv.1))

/-- The context dict built at executor.py lines 162-170. -/
def buildContext (command : CommandDefinition) (project_path : String)
    (session_id artifact_dir : String)
    (osEnviron args : List (String × String)) : Context :=
  { command := command
    project_path := project_path
    session_id := session_id
    artifact_dir := artifact_dir
    args := args
    environment := dictMerge osEnviron command.environment
    working_directory := command.working_directory.getD project_path }

/-! ## Orchestrator — `core/executor.py`, class `Executor`

`execute_command` (lines 126-246) is embedded as a pure function from an
environment of oracles to a result together with an effect trace.  One
`Effect` constructor per observable action of the source:

* `dbInit` — the `self.db.initialize()` attempt (line 136; a raise there
  is caught and only logged);
* `createSessionDir` — `ArtifactStore.create_session_dir`
  (artifacts.py lines 20-47): creates the session directory, its four
  subdirectories and the `session.info` metadata file;
* `dbStartEvent` / `dbEndEvent` — the row written by `db.start_event` /
  `db.end_event` (recorded only when the write does not raise);
* `beginStep` / `completeStep` / `failStep` — the in-memory
  `StateManager` marks (state.py lines 22-55);
* `invokeStep` — one `self.step_executor.execute` call with its timeout;
* `storeArtifact` — `ArtifactStore.store_content` for a step's non-empty
  output (line 203). -/

inductive Effect where
  | dbInit
  | createSessionDir (dir : String)
  | dbStartEvent (command : String) (session_id : String)
  | beginStep (step : String)
  | invokeStep (step : String) (timeout : Nat)
  | storeArtifact (filename : String)
  | completeStep (step : String) (output : String)
  | failStep (step : String) (output : String)
  | dbEndEvent (event_id : Nat) (status : String) (exit_code : Nat)
      (error_message : Option String)
deriving Repr, DecidableEq

/-- The oracles `Executor.execute_command` consults:
`load_command` is the command store (`CommandLoader.load_command`);
`stepEnvAt n` is the world seen by the `n`-th `StepExecutor.execute`
invocation of the run; `dbStartEvent` is `none` when `db.start_event`
raises (the `except` at line 184) and otherwise the returned row id;
`dbEndEventOk` is false when `db.end_event` raises (lines 217, 239);
`timestampSec` is `int(datetime.now().timestamp())` at line 157. -/
structure ExecEnv where
  load_command : String → Option CommandDefinition
  stepEnvAt : Nat → StepEnv
  dbStartEvent : Option Nat
  dbEndEventOk : Bool
  osEnviron : List (String × String)
  timestampSec : Nat

/-- Character scan for `pathName`: keep the text after the last
slash. -/
def pathNameAux : List Char → List Char → List Char
  | acc, [] => acc
  | acc, c :: cs =>
    if c = '/' then pathNameAux [] cs else pathNameAux (acc ++ [c]) cs

/-- `pathlib.Path.name` for a normalised absolute path (no trailing
slash): its last component. -/
def pathName (p : String) : String := ⟨pathNameAux [] p.data⟩

/-- The session identifier of executor.py line 157:
`f"{project_path.name}-{int(datetime.now().timestamp())}"`. -/
def sessionId (env : ExecEnv) (project_path : String) : String :=
  s!"{pathName project_path}-{env.timestampSec}"

/-- The session artifact directory `base_dir / project_name / session_id`
of `ArtifactStore.create_session_dir` (artifacts.py lines 26-30). -/
def sessionDir (env : ExecEnv) (project_path artifactsBase : String) : String :=
  artifactsBase ++ "/" ++ pathName project_path ++ "/" ++
    sessionId env project_path

/-- The flat step sequence of one run (executor.py line 191):
`command.pre_steps + command.steps + command.post_steps`. -/
def allSteps (command : CommandDefinition) : List String :=
  command.pre_steps ++ command.steps ++ command.post_steps

/-- The context a non-dry run passes to every step invocation. -/
def mainContext (env : ExecEnv) (command : CommandDefinition)
    (project_path artifactsBase : String)
    (args : List (String × String)) : Context :=
  buildContext command project_path (sessionId env project_path)
    (sessionDir env project_path artifactsBase) env.osEnviron args

/-- `Executor._dry_run` (executor.py lines 258-278): the human-readable
preview.  The argument map is rendered by the host language where Python
prints the dict. -/
def dryRunPreview (command : CommandDefinition) (ctx : Context) : String :=
  let all_steps := command.pre_steps ++ command.steps ++ command.post_steps
  s!"Dry run for command: {command.name}\n" ++
  s!"Description: {command.description}\n" ++
  s!"Project path: {ctx.project_path}\n" ++
  s!"Arguments: {ctx.args}\n\n" ++
  s!"Steps to execute ({all_steps.length}):\n" ++
  String.join (all_steps.enum.map (fun p => s!"  {p.1 + 1}. {p.2}\n")) ++
  (if command.cleanup_on_failure.isEmpty then ""
   else "\nCleanup steps on failure:\n" ++
     String.join (command.cleanup_on_failure.map (fun step => s!"  - {step}\n")))

/-- `Executor._dry_run`'s returned `ExecutionResult`. -/
def dryRun (command : CommandDefinition) (ctx : Context) : ExecutionResult :=
  { success := true, error := none, output := some (dryRunPreview command ctx),
    artifacts_path := none }

/-- The `store_content` call for a step's output (executor.py lines
202-205): a log artifact is written only when the output is non-empty
(`if output:`). -/
def storedFx (i : Nat) (step output : String) : List Effect :=
  if output = "" then [] else [.storeArtifact s!"step-{i + 1}-{step}.log"]

/-- The sequential step loop (executor.py lines 191-211).  `i` is the
`enumerate` index, `ctr` counts `StepExecutor.execute` invocations (the
index into `stepEnvAt`).  Returns the raised `StepError` message (if
any), the effects of the loop, and the next invocation counter.  A step
failure marks the step failed and aborts the remainder, mirroring
`raise StepError(...)` at line 211. -/
def runSteps (env : ExecEnv) (ctx : Context) (tmo : Nat) :
    Nat → Nat → List String → Option String × List Effect × Nat
  | _, ctr, [] => (none, [], ctr)
  | i, ctr, step :: rest =>
    let r := StepExecutor.execute (env.stepEnvAt ctr) step ctx tmo
    if r.1 then
      let next := runSteps env ctx tmo (i + 1) (ctr + 1) rest
      (next.1,
       [.beginStep step, .invokeStep step tmo] ++ storedFx i step r.2 ++
         [.completeStep step r.2] ++ next.2.1,
       next.2.2)
    else
      (some s!"Step '{step}' failed: {r.2}",
       [.beginStep step, .invokeStep step tmo] ++ storedFx i step r.2 ++
         [.failStep step r.2],
       ctr + 1)

/-- The `except` branch of executor.py lines 225-246: every declared
cleanup step is passed to `StepExecutor.execute` with the fixed timeout
60; its result is discarded and a raise there is caught (lines 230-233),
so the trace is the declared list regardless of outcomes. -/
def cleanupFx (command : CommandDefinition) : List Effect :=
  command.cleanup_on_failure.map (fun step => Effect.invokeStep step 60)

/-- The `db.start_event` attempt (executor.py lines 176-186): a row is
written exactly when the insert does not raise; on a raise only a
warning is logged and `event_id` stays `None`. -/
def startEventFx (env : ExecEnv) (command_name session_id : String) :
    List Effect :=
  match env.dbStartEvent with
  | some _ => [Effect.dbStartEvent command_name session_id]
  | none => []

/-- The `db.end_event` attempt (lines 214-218 and 236-240): a row is
written only when an event was started (`if context.get('event_id')`,
Python truthiness, so id 0 also skips) and the write does not raise. -/
def endEventFx (env : ExecEnv) (event_id : Option Nat) (status : String)
    (exit_code : Nat) (error_message : Option String) : List Effect :=
  match event_id with
  | some eid =>
    if eid != 0 && env.dbEndEventOk then
      [Effect.dbEndEvent eid status exit_code error_message]
    else []
  | none => []

/-- `Executor.execute_command` (executor.py lines 126-246), literally:
initialize the database (logged on failure), resolve the command (not
found is terminal), validate arguments (terminal), build session id,
artifact directory and context, stop with a preview on `dry_run`, start
event tracking (a raise leaves `event_id = None`), run the steps, and on
failure run the cleanup list; close the event record and return. -/
def execute_command (env : ExecEnv) (command_name : String)
    (project_path : String) (args : List (String × String))
    (dry_run : Bool) (artifactsBase : String) :
    ExecutionResult × List Effect :=
  let fx0 : List Effect := [.dbInit]
  match env.load_command command_name with
  | none =>
    ({ success := false, error := some s!"Command '{command_name}' not found",
       output := none, artifacts_path := none }, fx0)
  | some command =>
    let validation_errors := validate_arguments command args
    if validation_errors.isEmpty then
      let session_id := sessionId env project_path
      let artifact_dir := sessionDir env project_path artifactsBase
      let fx1 := fx0 ++ [.createSessionDir artifact_dir]
      let ctx := buildContext command project_path session_id artifact_dir
        env.osEnviron args
      if dry_run then
        (dryRun command ctx, fx1)
      else
        let event_id := env.dbStartEvent
        let fx2 := fx1 ++ startEventFx env command_name session_id
        let run := runSteps env ctx command.timeout 0 0 (allSteps command)
        match run.1 with
        | none =>
          ({ success := true, error := none, output := none,
             artifacts_path := some artifact_dir },
           fx2 ++ run.2.1 ++ endEventFx env event_id "completed" 0 none)
        | some errMsg =>
          ({ success := false, error := some errMsg, output := none,
             artifacts_path := some artifact_dir },
           fx2 ++ run.2.1 ++ cleanupFx command ++
             endEventFx env event_id "failed" 1 (some errMsg))
    else
      ({ success := false,
         error := some ("Invalid arguments: " ++
           String.intercalate ", " validation_errors),
         output := none, artifacts_path := none }, fx0)

/-! ### Trace projections -/

/-- The step names passed to `StepExecutor.execute`, in invocation
order. -/
def invokedSteps (fx : List Effect) : List String :=
  fx.filterMap (fun e => match e with
    | .invokeStep step _ => some step
    | _ => none)

/-- The step names marked completed by the state tracker, in order. -/
def completedSteps (fx : List Effect) : List String :=
  fx.filterMap (fun e => match e with
    | .completeStep step _ => some step
    | _ => none)

/-- The step names marked failed by the state tracker, in order. -/
def failedSteps (fx : List Effect) : List String :=
  fx.filterMap (fun e => match e with
    | .failStep step _ => some step
    | _ => none)

/-- The event-log writes (start or end) of the trace. -/
def eventWrites (fx : List Effect) : List Effect :=
  fx.filter (fun e => match e with
    | .dbStartEvent _ _ => true
    | .dbEndEvent _ _ _ _ => true
    | _ => false)

/-! ## Sample objects for concrete evaluations -/

/-- A sample command definition, as the YAML loader would produce it. -/
def sampleCommand : CommandDefinition :=
  { name := "build", description := "sample build", category := "workflow",
    arguments :=
      [{ name := "target", required := true, type := "string",
         default := none, description := none },
       { name := "flavor", required := false, type := "string",
         default := some "debug", description := none }],
    environment := [], pre_steps := ["setup-environment"],
    steps := ["alpha", "beta"], post_steps := ["cleanup"],
    cleanup_on_failure := ["notify", "teardown"],
    working_directory := none, timeout := 300 }

/-- A step world where every built-in step succeeds. -/
def sampleStepEnv : StepEnv :=
  { builtinRun := fun s => some (.value s!"ran {s}"),
    fileExists := fun _ => false,
    scriptRun := fun _ => .timedOut }

/-- An orchestrator environment knowing only `sampleCommand`. -/
def sampleEnv : ExecEnv :=
  { load_command := fun n => if n == "build" then some sampleCommand else none,
    stepEnvAt := fun _ => sampleStepEnv,
    dbStartEvent := some 1, dbEndEventOk := true,
    osEnviron := [("HOME", "/root")], timestampSec := 1700000000 }

/-- A step world with no built-in registered under `foo`, a shell script
present at the probed path, and a subprocess layer that raises. -/
def c4Env : StepEnv :=
  { builtinRun := fun _ => none,
    fileExists := fun p => p == "/home/user/proj/.prj/steps/foo.sh",
    scriptRun := fun _ => .raised "boom" }

/-- The context of a concrete run, as the orchestrator builds it. -/
def c4Ctx : Context :=
  mainContext sampleEnv sampleCommand "/home/user/proj" "/arts"
    [("target", "x")]

/-! ## Second revision — `src/prunejuice/core`

Data model (`core/models.py`), persistence layer
(`core/database/manager.py`), Git operations (`core/git_ops.py`) and the
workspace service (`core/operations.py`). -/

namespace V2

/-- `models.Project` (pydantic; dates kept as strings). -/
structure Project where
  id : Option Nat
  name : String
  slug : String
  path : String
  worktree_path : String
  git_init_head_ref : Option String
  git_init_branch : Option String
  date_created : Option String
deriving Repr, DecidableEq

/-- `models.Workspace`. -/
structure Workspace where
  id : Option Nat
  name : String
  slug : String
  project_id : Nat
  path : String
  git_branch : String
  git_origin_branch : String
  artifacts_path : Option String
  date_created : Option String
deriving Repr, DecidableEq

/-- A stored `projects` row. -/
structure ProjectRow where
  id : Nat
  name : String
  slug : String
  path : String
  worktree_path : String
  git_init_head_ref : Option String
  git_init_branch : Option String
  date_created : String
deriving Repr, DecidableEq

/-- A stored `workspaces` row. -/
structure WorkspaceRow where
  id : Nat
  name : String
  slug : String
  project_id : Nat
  path : String
  git_branch : String
  git_origin_branch : String
  artifacts_path : Option String
  date_created : String
deriving Repr, DecidableEq

/-- A stored `event_log` row (the columns of the SELECT at
manager.py lines 176-177). -/
structure EventRow where
  id : Nat
  action : String
  project_id : Nat
  workspace_id : Option Nat
  status : String
  timestamp : String
deriving Repr, DecidableEq

/-- The three tables of the store. -/
structure DbState where
  projects : List ProjectRow
  workspaces : List WorkspaceRow
  event_log : List EventRow
deriving Repr, DecidableEq

/-- `sqlite3.IntegrityError`. -/
inductive SqlError where
  | integrityError
deriving Repr, DecidableEq

/-- Python exceptions the workspace service can raise. -/
inductive PyErr where
  | keyError (key : String)
  | valueError (msg : String)
  | integrityError
deriving Repr, DecidableEq

/-- Python `d[k]` on a string dict: the value, or a raised `KeyError`. -/
def dictGetStr (d : List (String × String)) (k : String) :
    Except PyErr String :=
  match d.lookup k with
  | some v => .ok v
  | none => .error (.keyError k)

/-- `Database.connection` (manager.py lines 24-32): every logical
operation opens a fresh connection and first executes
`PRAGMA foreign_keys = ON`, so foreign-key enforcement is on for every
statement this layer runs. -/
structure Connection where
  foreign_keys : Bool
deriving Repr, DecidableEq

def Database.connection : Connection := { foreign_keys := true }

def projectIds (db : DbState) : List Nat := db.projects.map (·.id)

def workspaceIds (db : DbState) : List Nat := db.workspaces.map (·.id)

/-- Modelled from the spec: `schema.sql` (read by `Database.initialize`)
is not among the repository's source files.  Following spec §6 —
`workspaces(… project_id→projects …)`,
`event_log(… project_id→projects, workspace_id→workspaces NULLABLE …)` —
and §4.2 ("foreign-key enforcement turned on per connection"), an INSERT
into `event_log` on a connection with foreign keys on is checked against
the referenced project id and (when not NULL) workspace id; a dangling
reference is an integrity error and adds no row.  The returned id models
SQLite's `lastrowid`. -/
def sqlInsertEvent (conn : Connection) (db : DbState) (action : String)
    (project_id : Nat) (workspace_id : Option Nat)
    (status timestamp : String) : (Except SqlError Nat) × DbState :=
  if conn.foreign_keys &&
      (!((projectIds db).contains project_id) ||
       (match workspace_id with
        | some w => !((workspaceIds db).contains w)
        | none => false)) then
    (.error .integrityError, db)
  else
    let rowid := db.event_log.length + 1
    (.ok rowid,
     { db with event_log := db.event_log ++
        [{ id := rowid, action := action, project_id := project_id,
           workspace_id := workspace_id, status := status,
           timestamp := timestamp }] })

/-- Modelled from the spec: the `workspaces` INSERT's foreign key on
`project_id` (spec §6), checked when the connection has foreign keys
on; `date_created` defaults to the current time. -/
def sqlInsertWorkspace (conn : Connection) (db : DbState)
    (name slug : String) (project_id : Nat)
    (path git_branch git_origin_branch : String)
    (artifacts_path : Option String) (date_created : String) :
    (Except SqlError Nat) × DbState :=
  if conn.foreign_keys && !((projectIds db).contains project_id) then
    (.error .integrityError, db)
  else
    let rowid := db.workspaces.length + 1
    (.ok rowid,
     { db with workspaces := db.workspaces ++
        [{ id := rowid, name := name, slug := slug, project_id := project_id,
           path := path, git_branch := git_branch,
           git_origin_branch := git_origin_branch,
           artifacts_path := artifacts_path,
           date_created := date_created }] })

/-- Modelled from the spec: the `projects` INSERT (no outgoing foreign
key to check). -/
def sqlInsertProject (_conn : Connection) (db : DbState)
    (name slug path worktree_path : String)
    (git_init_head_ref git_init_branch : Option String)
    (date_created : String) : (Except SqlError Nat) × DbState :=
  let rowid := db.projects.length + 1
  (.ok rowid,
   { db with projects := db.projects ++
      [{ id := rowid, name := name, slug := slug, path := path,
         worktree_path := worktree_path,
         git_init_head_ref := git_init_head_ref,
         git_init_branch := git_init_branch,
         date_created := date_created }] })

/-- `Database.insert_event` (manager.py lines 42-67): default the
timestamp to `datetime.now().isoformat()` (the `now` argument), open a
connection — foreign keys on — and insert with bound parameters.  The
`lastrowid is None` guard never fires in this model. -/
def Database.insert_event (now : String) (db : DbState) (action : String)
    (project_id : Nat) (status : String) (workspace_id : Option Nat)
    (timestamp : Option String) : (Except SqlError Nat) × DbState :=
  let ts := timestamp.getD now
  sqlInsertEvent Database.connection db action project_id workspace_id
    status ts

/-- `Database.insert_project` (manager.py lines 69-91). -/
def Database.insert_project (now : String) (db : DbState)
    (name slug path worktree_path : String)
    (git_init_head_ref git_init_branch : Option String) :
    (Except SqlError Nat) × DbState :=
  sqlInsertProject Database.connection db name slug path worktree_path
    git_init_head_ref git_init_branch now

/-- `Database.insert_workspace` (manager.py lines 93-116). -/
def Database.insert_workspace (now : String) (db : DbState)
    (name slug : String) (project_id : Nat)
    (path git_branch git_origin_branch : String)
    (artifacts_path : Option String) : (Except SqlError Nat) × DbState :=
  sqlInsertWorkspace Database.connection db name slug project_id path
    git_branch git_origin_branch artifacts_path now

/-- Insertion into a list kept sorted by timestamp, descending. -/
def insertByTsDesc (e : EventRow) : List EventRow → List EventRow
  | [] => [e]
  | x :: xs =>
    if x.timestamp ≤ e.timestamp then e :: x :: xs
    else x :: insertByTsDesc e xs

/-- `ORDER BY timestamp DESC` over TEXT values: SQLite compares TEXT
bytewise, i.e. lexicographically, and leaves the relative order of equal
keys unspecified; modelled by insertion sort on the string order. -/
def sortByTimestampDesc : List EventRow → List EventRow
  | [] => []
  | e :: es => insertByTsDesc e (sortByTimestampDesc es)

/-- `Database.get_events_by_project_id` (manager.py lines 171-194):
`SELECT … FROM event_log WHERE project_id = ? ORDER BY timestamp DESC`;
the selected rows are copied field for field into `Event` objects, so
the rows themselves are returned here. -/
def Database.get_events_by_project_id (db : DbState) (project_id : Nat) :
    List EventRow :=
  sortByTimestampDesc
    (db.event_log.filter (fun e => e.project_id == project_id))

/-! ### Git operations — `core/git_ops.py` -/

/-- Filesystem / git effects of `GitManager.create_worktree`. -/
inductive GitFx where
  | mkdirParents (path : String)
  | listRefs
  | worktreeAdd (branch path base : String)
deriving Repr, DecidableEq

/-- Behaviour of `git worktree add -b <branch> <path> <base>`:
success, or a raised `GitCommandError` (its message). -/
inductive GitCmdOutcome where
  | ok
  | cmdError (msg : String)
deriving Repr, DecidableEq

/-- The state `GitManager` holds: the repository's refs (by name) and
the behaviour of `git worktree add`; `Option RepoState` below models
`self._repo` possibly being `None`. -/
structure RepoState where
  refs : List String
  worktreeAddResult : String → String → String → GitCmdOutcome

/-- The worktree path of git_ops.py line 94:
`worktree_dir / f"{prefix}-{branch_name}" if prefix else
worktree_dir / branch_name` — the keyword argument `prefix` is called
`pfx` here because Lean reserves the word; its empty-string default is
falsy in Python. -/
def worktreePathFor (worktree_dir branch_name pfx : String) : String :=
  if pfx ≠ "" then worktree_dir ++ "/" ++ pfx ++ "-" ++ branch_name
  else worktree_dir ++ "/" ++ branch_name

/-- `GitManager.create_worktree` (git_ops.py lines 79-113): compute the
worktree path, `mkdir(parents=True, exist_ok=True)` it (line 95, before
any check), then inside the `try`: report failure when the repository is
not initialised or the base branch is not among the refs, else run
`git worktree add`; a `GitCommandError` is caught and reported.  Returns
the Python dict — keys `status` and `output` — plus the effect trace. -/
def create_worktree (repo : Option RepoState)
    (worktree_dir branch_name base_branch pfx : String) :
    List (String × String) × List GitFx :=
  let worktree_path := worktreePathFor worktree_dir branch_name pfx
  let fx0 : List GitFx := [.mkdirParents worktree_path]
  match repo with
  | none => ([("status", "failed"), ("output", "Repository not initialized")], fx0)
  | some r =>
    let fx1 := fx0 ++ [GitFx.listRefs]
    if !(r.refs.contains base_branch) then
      ([("status", "failed"),
        ("output", s!"Base branch '{base_branch}' does not exist")], fx1)
    else
      let fx2 := fx1 ++ [GitFx.worktreeAdd branch_name worktree_path base_branch]
      match r.worktreeAddResult branch_name worktree_path base_branch with
      | .ok => ([("status", "success"), ("output", worktree_path)], fx2)
      | .cmdError e =>
        ([("status", "failed"),
          ("output", s!"Failed to create worktree: {e}")], fx2)

/-! ### Workspace service — `core/operations.py` -/

/-- `WorkspaceService.create_workspace` (operations.py lines 27-74).
`slugify` is the external `python-slugify` function, passed in.  The
returned triple is the Python outcome (`.error` is an uncaught
exception), the database state after the call, and the git effect
trace.  Note operations.py line 40 reads `worktree_result["message"]`
although `create_worktree` returns keys `status`/`output`. -/
def create_workspace (slugify : String → String) (git : Option RepoState)
    (now : String) (db : DbState) (project : Project) (name : String)
    (branch_name base_branch : Option String) :
    Except PyErr (Option Workspace) × DbState × List GitFx :=
  let workspace_slug := slugify name
  let actual_branch_name := branch_name.getD workspace_slug
  -- the base_branch kwarg is passed only when supplied; otherwise
  -- create_worktree's own default "main" applies (git_ops.py line 80)
  let wt := create_worktree git project.worktree_path actual_branch_name
    (base_branch.getD "main") ""
  let worktree_result := wt.1
  match dictGetStr worktree_result "status" with
  | .error e => (.error e, db, wt.2)
  | .ok st =>
    if st ≠ "success" then
      -- operations.py line 40: logger.error(worktree_result["message"])
      match dictGetStr worktree_result "message" with
      | .error e => (.error e, db, wt.2)
      | .ok _ => (.ok none, db, wt.2)
    else
      match dictGetStr worktree_result "output" with
      | .error e => (.error e, db, wt.2)
      | .ok new_worktree_path =>
        match project.id with
        | none => (.error (.valueError "Project ID is not set"), db, wt.2)
        | some pid =>
          let artifacts_path := project.path ++ "/.prj/artifacts/" ++ workspace_slug
          match Database.insert_workspace now db name workspace_slug pid
              new_worktree_path actual_branch_name (base_branch.getD "")
              (some artifacts_path) with
          | (.error _, db1) => (.error .integrityError, db1, wt.2)
          | (.ok new_workspace_id, db1) =>
            let new_workspace : Workspace :=
              { id := some new_workspace_id, name := name,
                slug := workspace_slug, project_id := pid,
                path := new_worktree_path,
                git_branch := actual_branch_name,
                git_origin_branch := base_branch.getD "",
                artifacts_path := some artifacts_path, date_created := none }
            match Database.insert_event now db1 "workspace-created" pid
                "success" (some new_workspace_id) none with
            | (.error _, db2) => (.error .integrityError, db2, wt.2)
            | (.ok _, db2) => (.ok (some new_workspace), db2, wt.2)

/-! ### Sample objects for concrete evaluations -/

/-- A registered project with id 1. -/
def c2Project : Project :=
  { id := some 1, name := "Proj", slug := "proj", path := "/home/user/proj",
    worktree_path := "/home/user/proj-worktrees", git_init_head_ref := none,
    git_init_branch := none, date_created := none }

/-- A database holding only the project row referenced by
`c2Project`. -/
def c2Db : DbState :=
  { projects :=
      [{ id := 1, name := "Proj", slug := "proj", path := "/home/user/proj",
         worktree_path := "/home/user/proj-worktrees",
         git_init_head_ref := none, git_init_branch := none,
         date_created := "2024-01-01" }],
    workspaces := [], event_log := [] }

/-- A repository whose only ref is `master`: the default base branch
`main` is absent, so worktree creation reports a failed status. -/
def c2Repo : RepoState :=
  { refs := ["master"], worktreeAddResult := fun _ _ _ => .ok }

/-- A database built through the embedded operations: one project and
two of its events carrying the same caller-supplied timestamp. -/
def c8Db : DbState :=
  let db0 : DbState := { projects := [], workspaces := [], event_log := [] }
  let db1 := (Database.insert_project "t0" db0 "Proj" "proj" "/p" "/p-wt"
    none none).2
  let db2 := (Database.insert_event "t0" db1 "a" 1 "success" none
    (some "2024")).2
  (Database.insert_event "t0" db2 "b" 1 "success" none (some "2024")).2

end V2

/-! ### Projection lemmas -/

@[simp] theorem invokedSteps_nil : invokedSteps [] = [] := rfl

@[simp] theorem completedSteps_nil : completedSteps [] = [] := rfl

@[simp] theorem failedSteps_nil : failedSteps [] = [] := rfl

@[simp] theorem eventWrites_nil : eventWrites [] = [] := rfl

@[simp] theorem invokedSteps_append (a b : List Effect) :
    invokedSteps (a ++ b) = invokedSteps a ++ invokedSteps b := by
  simp [invokedSteps]

@[simp] theorem completedSteps_append (a b : List Effect) :
    completedSteps (a ++ b) = completedSteps a ++ completedSteps b := by
  simp [completedSteps]

@[simp] theorem failedSteps_append (a b : List Effect) :
    failedSteps (a ++ b) = failedSteps a ++ failedSteps b := by
  simp [failedSteps]

@[simp] theorem eventWrites_append (a b : List Effect) :
    eventWrites (a ++ b) = eventWrites a ++ eventWrites b := by
  simp [eventWrites]

@[simp] theorem invokedSteps_cons_invoke (s : String) (t : Nat)
    (fx : List Effect) :
    invokedSteps (.invokeStep s t :: fx) = s :: invokedSteps fx := rfl

@[simp] theorem invokedSteps_cons_dbInit (fx : List Effect) :
    invokedSteps (.dbInit :: fx) = invokedSteps fx := rfl

@[simp] theorem invokedSteps_cons_csd (d : String) (fx : List Effect) :
    invokedSteps (.createSessionDir d :: fx) = invokedSteps fx := rfl

@[simp] theorem invokedSteps_cons_start (c s : String) (fx : List Effect) :
    invokedSteps (.dbStartEvent c s :: fx) = invokedSteps fx := rfl

@[simp] theorem invokedSteps_cons_begin (s : String) (fx : List Effect) :
    invokedSteps (.beginStep s :: fx) = invokedSteps fx := rfl

@[simp] theorem invokedSteps_cons_store (f : String) (fx : List Effect) :
    invokedSteps (.storeArtifact f :: fx) = invokedSteps fx := rfl

@[simp] theorem invokedSteps_cons_complete (s o : String) (fx : List Effect) :
    invokedSteps (.completeStep s o :: fx) = invokedSteps fx := rfl

@[simp] theorem invokedSteps_cons_fail (s o : String) (fx : List Effect) :
    invokedSteps (.failStep s o :: fx) = invokedSteps fx := rfl

@[simp] theorem invokedSteps_cons_end (e : Nat) (st : String) (ec : Nat)
    (em : Option String) (fx : List Effect) :
    invokedSteps (.dbEndEvent e st ec em :: fx) = invokedSteps fx := rfl

@[simp] theorem completedSteps_cons_complete (s o : String)
    (fx : List Effect) :
    completedSteps (.completeStep s o :: fx) = s :: completedSteps fx := rfl

@[simp] theorem completedSteps_cons_dbInit (fx : List Effect) :
    completedSteps (.dbInit :: fx) = completedSteps fx := rfl

@[simp] theorem completedSteps_cons_csd (d : String) (fx : List Effect) :
    completedSteps (.createSessionDir d :: fx) = completedSteps fx := rfl

@[simp] theorem completedSteps_cons_start (c s : String) (fx : List Effect) :
    completedSteps (.dbStartEvent c s :: fx) = completedSteps fx := rfl

@[simp] theorem completedSteps_cons_begin (s : String) (fx : List Effect) :
    completedSteps (.beginStep s :: fx) = completedSteps fx := rfl

@[simp] theorem completedSteps_cons_invoke (s : String) (t : Nat)
    (fx : List Effect) :
    completedSteps (.invokeStep s t :: fx) = completedSteps fx := rfl

@[simp] theorem completedSteps_cons_store (f : String) (fx : List Effect) :
    completedSteps (.storeArtifact f :: fx) = completedSteps fx := rfl

@[simp] theorem completedSteps_cons_fail (s o : String) (fx : List Effect) :
    completedSteps (.failStep s o :: fx) = completedSteps fx := rfl

@[simp] theorem completedSteps_cons_end (e : Nat) (st : String) (ec : Nat)
    (em : Option String) (fx : List Effect) :
    completedSteps (.dbEndEvent e st ec em :: fx) = completedSteps fx := rfl

@[simp] theorem failedSteps_cons_fail (s o : String) (fx : List Effect) :
    failedSteps (.failStep s o :: fx) = s :: failedSteps fx := rfl

@[simp] theorem failedSteps_cons_dbInit (fx : List Effect) :
    failedSteps (.dbInit :: fx) = failedSteps fx := rfl

@[simp] theorem failedSteps_cons_csd (d : String) (fx : List Effect) :
    failedSteps (.createSessionDir d :: fx) = failedSteps fx := rfl

@[simp] theorem failedSteps_cons_start (c s : String) (fx : List Effect) :
    failedSteps (.dbStartEvent c s :: fx) = failedSteps fx := rfl

@[simp] theorem failedSteps_cons_begin (s : String) (fx : List Effect) :
    failedSteps (.beginStep s :: fx) = failedSteps fx := rfl

@[simp] theorem failedSteps_cons_invoke (s : String) (t : Nat)
    (fx : List Effect) :
    failedSteps (.invokeStep s t :: fx) = failedSteps fx := rfl

@[simp] theorem failedSteps_cons_store (f : String) (fx : List Effect) :
    failedSteps (.storeArtifact f :: fx) = failedSteps fx := rfl

@[simp] theorem failedSteps_cons_complete (s o : String) (fx : List Effect) :
    failedSteps (.completeStep s o :: fx) = failedSteps fx := rfl

@[simp] theorem failedSteps_cons_end (e : Nat) (st : String) (ec : Nat)
    (em : Option String) (fx : List Effect) :
    failedSteps (.dbEndEvent e st ec em :: fx) = failedSteps fx := rfl

@[simp] theorem eventWrites_cons_start (c s : String) (fx : List Effect) :
    eventWrites (.dbStartEvent c s :: fx) =
      .dbStartEvent c s :: eventWrites fx := rfl

@[simp] theorem eventWrites_cons_end (e : Nat) (st : String) (ec : Nat)
    (em : Option String) (fx : List Effect) :
    eventWrites (.dbEndEvent e st ec em :: fx) =
      .dbEndEvent e st ec em :: eventWrites fx := rfl

@[simp] theorem eventWrites_cons_dbInit (fx : List Effect) :
    eventWrites (.dbInit :: fx) = eventWrites fx := rfl

@[simp] theorem eventWrites_cons_csd (d : String) (fx : List Effect) :
    eventWrites (.createSessionDir d :: fx) = eventWrites fx := rfl

@[simp] theorem eventWrites_cons_begin (s : String) (fx : List Effect) :
    eventWrites (.beginStep s :: fx) = eventWrites fx := rfl

@[simp] theorem eventWrites_cons_invoke (s : String) (t : Nat)
    (fx : List Effect) :
    eventWrites (.invokeStep s t :: fx) = eventWrites fx := rfl

@[simp] theorem eventWrites_cons_store (f : String) (fx : List Effect) :
    eventWrites (.storeArtifact f :: fx) = eventWrites fx := rfl

@[simp] theorem eventWrites_cons_complete (s o : String) (fx : List Effect) :
    eventWrites (.completeStep s o :: fx) = eventWrites fx := rfl

@[simp] theorem eventWrites_cons_fail (s o : String) (fx : List Effect) :
    eventWrites (.failStep s o :: fx) = eventWrites fx := rfl

@[simp] theorem invokedSteps_storedFx (i : Nat) (s o : String) :
    invokedSteps (storedFx i s o) = [] := by
  unfold storedFx; split <;> rfl

@[simp] theorem completedSteps_storedFx (i : Nat) (s o : String) :
    completedSteps (storedFx i s o) = [] := by
  unfold storedFx; split <;> rfl

@[simp] theorem failedSteps_storedFx (i : Nat) (s o : String) :
    failedSteps (storedFx i s o) = [] := by
  unfold storedFx; split <;> rfl

@[simp] theorem eventWrites_storedFx (i : Nat) (s o : String) :
    eventWrites (storedFx i s o) = [] := by
  unfold storedFx; split <;> rfl

@[simp] theorem invokedSteps_cleanupFx (command : CommandDefinition) :
    invokedSteps (cleanupFx command) = command.cleanup_on_failure := by
  unfold cleanupFx invokedSteps
  induction command.cleanup_on_failure with
  | nil => rfl
  | cons s rest ih => simpa using ih

@[simp] theorem completedSteps_cleanupFx (command : CommandDefinition) :
    completedSteps (cleanupFx command) = [] := by
  unfold cleanupFx completedSteps
  induction command.cleanup_on_failure with
  | nil => rfl
  | cons s rest ih => simp [ih]

@[simp] theorem failedSteps_cleanupFx (command : CommandDefinition) :
    failedSteps (cleanupFx command) = [] := by
  unfold cleanupFx failedSteps
  induction command.cleanup_on_failure with
  | nil => rfl
  | cons s rest ih => simp [ih]

@[simp] theorem eventWrites_cleanupFx (command : CommandDefinition) :
    eventWrites (cleanupFx command) = [] := by
  unfold cleanupFx eventWrites
  induction command.cleanup_on_failure with
  | nil => rfl
  | cons s rest ih => simp [ih]

@[simp] theorem invokedSteps_startEventFx (env : ExecEnv) (c s : String) :
    invokedSteps (startEventFx env c s) = [] := by
  unfold startEventFx; cases env.dbStartEvent <;> rfl

@[simp] theorem completedSteps_startEventFx (env : ExecEnv) (c s : String) :
    completedSteps (startEventFx env c s) = [] := by
  unfold startEventFx; cases env.dbStartEvent <;> rfl

@[simp] theorem failedSteps_startEventFx (env : ExecEnv) (c s : String) :
    failedSteps (startEventFx env c s) = [] := by
  unfold startEventFx; cases env.dbStartEvent <;> rfl

@[simp] theorem invokedSteps_endEventFx (env : ExecEnv) (eid : Option Nat)
    (st : String) (ec : Nat) (em : Option String) :
    invokedSteps (endEventFx env eid st ec em) = [] := by
  unfold endEventFx
  cases eid with
  | none => rfl
  | some e => dsimp only; split <;> rfl

@[simp] theorem completedSteps_endEventFx (env : ExecEnv) (eid : Option Nat)
    (st : String) (ec : Nat) (em : Option String) :
    completedSteps (endEventFx env eid st ec em) = [] := by
  unfold endEventFx
  cases eid with
  | none => rfl
  | some e => dsimp only; split <;> rfl

@[simp] theorem failedSteps_endEventFx (env : ExecEnv) (eid : Option Nat)
    (st : String) (ec : Nat) (em : Option String) :
    failedSteps (endEventFx env eid st ec em) = [] := by
  unfold endEventFx
  cases eid with
  | none => rfl
  | some e => dsimp only; split <;> rfl

/-! ### Run-loop lemmas -/

/-- When every invocation up to the end of the list succeeds, the loop
raises nothing, invokes and completes exactly the list in order, and
fails nothing. -/
theorem runSteps_all_success (env : ExecEnv) (ctx : Context) (tmo : Nat)
    (steps : List String) : ∀ (i ctr : Nat),
    (∀ j (hj : j < steps.length),
      (StepExecutor.execute (env.stepEnvAt (ctr + j)) (steps.get ⟨j, hj⟩)
        ctx tmo).1 = true) →
    (runSteps env ctx tmo i ctr steps).1 = none ∧
    invokedSteps (runSteps env ctx tmo i ctr steps).2.1 = steps ∧
    completedSteps (runSteps env ctx tmo i ctr steps).2.1 = steps ∧
    failedSteps (runSteps env ctx tmo i ctr steps).2.1 = [] ∧
    eventWrites (runSteps env ctx tmo i ctr steps).2.1 = [] := by
  induction steps with
  | nil => intro i ctr _; simp [runSteps]
  | cons step rest ih =>
    intro i ctr h
    have h0 : (StepExecutor.execute (env.stepEnvAt ctr) step ctx tmo).1 = true := by
      have := h 0 (Nat.succ_pos _)
      simpa using this
    have hrest := ih (i + 1) (ctr + 1) (fun j hj => by
      have := h (j + 1) (Nat.succ_lt_succ hj)
      have e : ctr + (j + 1) = ctr + 1 + j := by omega
      rw [e] at this
      simpa using this)
    refine ⟨?_, ?_, ?_, ?_, ?_⟩ <;>
      simp [runSteps, h0, hrest.1, hrest.2.1, hrest.2.2.1, hrest.2.2.2.1,
        hrest.2.2.2.2]

/-- When the invocations before index `k` succeed and the one at `k`
fails, the loop raises a `StepError`, invokes exactly the first `k + 1`
steps, completes the first `k`, and marks exactly the `k`-th failed. -/
theorem runSteps_first_failure (env : ExecEnv) (ctx : Context) (tmo : Nat) :
    ∀ (k : Nat) (steps : List String) (i ctr : Nat) (hk : k < steps.length),
    (∀ j (hj : j < k),
      (StepExecutor.execute (env.stepEnvAt (ctr + j))
        (steps.get ⟨j, Nat.lt_trans hj hk⟩) ctx tmo).1 = true) →
    (StepExecutor.execute (env.stepEnvAt (ctr + k)) (steps.get ⟨k, hk⟩)
      ctx tmo).1 = false →
    (∃ msg, (runSteps env ctx tmo i ctr steps).1 = some msg) ∧
    invokedSteps (runSteps env ctx tmo i ctr steps).2.1 = steps.take (k + 1) ∧
    completedSteps (runSteps env ctx tmo i ctr steps).2.1 = steps.take k ∧
    failedSteps (runSteps env ctx tmo i ctr steps).2.1 = [steps.get ⟨k, hk⟩] ∧
    eventWrites (runSteps env ctx tmo i ctr steps).2.1 = [] := by
  intro k
  induction k with
  | zero =>
    intro steps i ctr hk _ hfail
    match steps, hk with
    | step :: rest, _ =>
      have h0 : (StepExecutor.execute (env.stepEnvAt ctr) step ctx tmo).1 = false := by
        simpa using hfail
      refine ⟨⟨s!"Step '{step}' failed: {(StepExecutor.execute (env.stepEnvAt ctr) step ctx tmo).2}", ?_⟩,
        ?_, ?_, ?_, ?_⟩ <;> simp [runSteps, h0]
  | succ k ih =>
    intro steps i ctr hk hpre hfail
    match steps, hk with
    | step :: rest, hk =>
      have h0 : (StepExecutor.execute (env.stepEnvAt ctr) step ctx tmo).1 = true := by
        have := hpre 0 (Nat.succ_pos _)
        simpa using this
      have hk' : k < rest.length := Nat.lt_of_succ_lt_succ hk
      have hpre' : ∀ j (hj : j < k),
          (StepExecutor.execute (env.stepEnvAt (ctr + 1 + j))
            (rest.get ⟨j, Nat.lt_trans hj hk'⟩) ctx tmo).1 = true := by
        intro j hj
        have := hpre (j + 1) (Nat.succ_lt_succ hj)
        have e : ctr + (j + 1) = ctr + 1 + j := by omega
        rw [e] at this
        simpa using this
      have hfail' : (StepExecutor.execute (env.stepEnvAt (ctr + 1 + k))
          (rest.get ⟨k, hk'⟩) ctx tmo).1 = false := by
        have e : ctr + (k + 1) = ctr + 1 + k := by omega
        rw [e] at hfail
        simpa using hfail
      have hrest := ih rest (i + 1) (ctr + 1) hk' hpre' hfail'
      obtain ⟨msg, hmsg⟩ := hrest.1
      refine ⟨⟨msg, ?_⟩, ?_, ?_, ?_, ?_⟩ <;>
        simp [runSteps, h0, hmsg, hrest.2.1, hrest.2.2.1, hrest.2.2.2.1,
          hrest.2.2.2.2]

/-- The loop consults the environment only through `stepEnvAt`. -/
theorem runSteps_stepEnv_congr (env env' : ExecEnv)
    (h : env.stepEnvAt = env'.stepEnvAt) (ctx : Context) (tmo : Nat) :
    ∀ (steps : List String) (i ctr : Nat),
      runSteps env ctx tmo i ctr steps = runSteps env' ctx tmo i ctr steps := by
  intro steps
  induction steps with
  | nil => intro i ctr; rfl
  | cons step rest ih =>
    intro i ctr
    simp only [runSteps, h, ih]

/-! ## Claim C1 — sequential execution, failure marks and cleanup -/

/-- C1: In a non-dry run whose command resolves and whose arguments
validate, the steps handed to the Step Runner are exactly
`pre_steps ++ steps ++ post_steps` in declared order, one at a time.
When every invocation succeeds, the whole concatenation is invoked and
each step is marked completed.  When the first failure is at index `k`
(so in a sequence `[a, b]` with `b` failing, `k = 1`), exactly the first
`k + 1` steps are invoked — nothing after the failing step runs — the
first `k` are marked completed, the failing step alone is marked failed,
and afterwards every step of `cleanup_on_failure` is passed to the Step
Runner exactly once, in declared order.  The oracle `stepEnvAt` is
unconstrained at the cleanup invocations, so this holds even when a
cleanup step itself fails or raises. -/
theorem c1_steps_in_order_with_cleanup (env : ExecEnv)
    (command_name project_path artifactsBase : String)
    (args : List (String × String)) (command : CommandDefinition)
    (hload : env.load_command command_name = some command)
    (hargs : validate_arguments command args = []) :
    ((∀ j (hj : j < (allSteps command).length),
        (StepExecutor.execute (env.stepEnvAt j) ((allSteps command).get ⟨j, hj⟩)
          (mainContext env command project_path artifactsBase args)
          command.timeout).1 = true) →
      invokedSteps (execute_command env command_name project_path args false
          artifactsBase).2 = allSteps command ∧
      completedSteps (execute_command env command_name project_path args false
          artifactsBase).2 = allSteps command ∧
      failedSteps (execute_command env command_name project_path args false
          artifactsBase).2 = [] ∧
      (execute_command env command_name project_path args false
          artifactsBase).1.success = true)
    ∧
    (∀ k (hk : k < (allSteps command).length),
      (∀ j (hj : j < k),
        (StepExecutor.execute (env.stepEnvAt j)
          ((allSteps command).get ⟨j, Nat.lt_trans hj hk⟩)
          (mainContext env command project_path artifactsBase args)
          command.timeout).1 = true) →
      (StepExecutor.execute (env.stepEnvAt k) ((allSteps command).get ⟨k, hk⟩)
        (mainContext env command project_path artifactsBase args)
        command.timeout).1 = false →
      invokedSteps (execute_command env command_name project_path args false
          artifactsBase).2
        = (allSteps command).take (k + 1) ++ command.cleanup_on_failure ∧
      completedSteps (execute_command env command_name project_path args false
          artifactsBase).2 = (allSteps command).take k ∧
      failedSteps (execute_command env command_name project_path args false
          artifactsBase).2 = [(allSteps command).get ⟨k, hk⟩] ∧
      (execute_command env command_name project_path args false
          artifactsBase).1.success = false) := by
  constructor
  · intro hall
    have hr := runSteps_all_success env
      (mainContext env command project_path artifactsBase args)
      command.timeout (allSteps command) 0 0
      (fun j hj => by simpa using hall j hj)
    simp only [mainContext] at hr
    simp only [execute_command, hload, hargs, List.isEmpty_nil, if_true,
      Bool.false_eq_true, if_false]
    simp [hr.1, hr.2.1, hr.2.2.1, hr.2.2.2.1]
  · intro k hk hpre hfail
    have hr := runSteps_first_failure env
      (mainContext env command project_path artifactsBase args)
      command.timeout k (allSteps command) 0 0 hk
      (fun j hj => by simpa using hpre j hj)
      (by simpa using hfail)
    obtain ⟨msg, hmsg⟩ := hr.1
    simp only [mainContext] at hmsg hr
    simp only [execute_command, hload, hargs, List.isEmpty_nil, if_true,
      Bool.false_eq_true, if_false]
    simp [hmsg, hr.2.1, hr.2.2.1, hr.2.2.2.1]

/-- Witness for C1 at a concrete run: `sampleCommand` with the step at
index 2 (`beta`) failing; the first three steps are invoked, the first
two completed, `beta` marked failed, and both cleanup steps invoked in
order. -/
theorem c1_witness :
    invokedSteps (execute_command
      { sampleEnv with stepEnvAt := fun n =>
          if n == 2 then
            { sampleStepEnv with builtinRun := fun _ => some (.raised "boom") }
          else sampleStepEnv }
      "build" "/home/user/proj" [("target", "x")] false "/arts").2
      = ["setup-environment", "alpha", "beta", "notify", "teardown"] ∧
    completedSteps (execute_command
      { sampleEnv with stepEnvAt := fun n =>
          if n == 2 then
            { sampleStepEnv with builtinRun := fun _ => some (.raised "boom") }
          else sampleStepEnv }
      "build" "/home/user/proj" [("target", "x")] false "/arts").2
      = ["setup-environment", "alpha"] ∧
    failedSteps (execute_command
      { sampleEnv with stepEnvAt := fun n =>
          if n == 2 then
            { sampleStepEnv with builtinRun := fun _ => some (.raised "boom") }
          else sampleStepEnv }
      "build" "/home/user/proj" [("target", "x")] false "/arts").2
      = ["beta"] := by
  have h := (c1_steps_in_order_with_cleanup
    { sampleEnv with stepEnvAt := fun n =>
        if n == 2 then
          { sampleStepEnv with builtinRun := fun _ => some (.raised "boom") }
        else sampleStepEnv }
    "build" "/home/user/proj" "/arts" [("target", "x")] sampleCommand
    rfl rfl).2 2 (by decide)
    (by intro j hj
        interval_cases j <;> rfl)
    rfl
  exact ⟨h.1, h.2.1, h.2.2.1⟩

/-! ## Claim C6 — unknown command name -/

/-- C6: when the command store cannot resolve the name,
`execute_command` returns a failure whose error text names the missing
command, and its trace holds no event write and no step invocation (the
only effect is the database-initialisation attempt of line 136). -/
theorem c6_unknown_command_failure (env : ExecEnv)
    (command_name project_path artifactsBase : String)
    (args : List (String × String)) (dry_run : Bool)
    (h : env.load_command command_name = none) :
    execute_command env command_name project_path args dry_run artifactsBase
      = ({ success := false,
           error := some s!"Command '{command_name}' not found",
           output := none, artifacts_path := none }, [Effect.dbInit]) ∧
    eventWrites (execute_command env command_name project_path args dry_run
      artifactsBase).2 = [] ∧
    invokedSteps (execute_command env command_name project_path args dry_run
      artifactsBase).2 = [] := by
  have he : execute_command env command_name project_path args dry_run
      artifactsBase
      = ({ success := false,
           error := some s!"Command '{command_name}' not found",
           output := none, artifacts_path := none }, [Effect.dbInit]) := by
    simp only [execute_command, h]
  refine ⟨he, ?_, ?_⟩ <;> rw [he] <;> rfl

/-- Witness for C6: running an unregistered command name. -/
theorem c6_witness :
    execute_command sampleEnv "deploy" "/home/user/proj" [] false "/arts"
      = ({ success := false, error := some "Command 'deploy' not found",
           output := none, artifacts_path := none }, [Effect.dbInit]) :=
  (c6_unknown_command_failure sampleEnv "deploy" "/home/user/proj" "/arts"
    [] false rfl).1

/-! ## Claim C5 — event-write failures never flip the outcome -/

/-- C5: two runs over the same command store, step worlds, environment
and clock, differing only in whether the event start/end database
writes succeed (the two `Option Nat` / `Bool` pairs), return results
with the same success flag: the `try/except` blocks of executor.py
lines 176-186, 214-218 and 236-240 only log such failures, so success
is decided by the step execution alone. -/
theorem c5_event_write_failures_never_flip_success
    (l : String → Option CommandDefinition) (s : Nat → StepEnv)
    (o : List (String × String)) (t : Nat) (d d' : Option Nat)
    (b b' : Bool) (command_name project_path artifactsBase : String)
    (args : List (String × String)) (dry_run : Bool) :
    (execute_command ⟨l, s, d, b, o, t⟩ command_name project_path args
      dry_run artifactsBase).1.success
      = (execute_command ⟨l, s, d', b', o, t⟩ command_name project_path args
        dry_run artifactsBase).1.success := by
  simp only [execute_command, sessionId, sessionDir,
    runSteps_stepEnv_congr ⟨l, s, d, b, o, t⟩ ⟨l, s, d', b', o, t⟩ rfl]
  cases l command_name with
  | none => rfl
  | some command =>
    dsimp only
    cases hv : (validate_arguments command args).isEmpty
    · simp only [hv, Bool.false_eq_true, if_false]
    · simp only [hv, if_true]
      cases dry_run with
      | true => rfl
      | false =>
        split
        · rfl
        · split <;> rfl

/-! ## Claim C3 — dry run -/

/-- C3 counterexample: a dry run is not free of side effects.
executor.py line 158 calls `ArtifactStore.create_session_dir` before the
`dry_run` check at line 172, so the session artifact directory — with
its four subdirectories and `session.info` metadata file — is created on
disk.  This concrete dry run's trace contains that filesystem write (and
the database-initialisation attempt), refuting "performs no side
effects". -/
theorem c3_counterexample :
    (execute_command sampleEnv "build" "/home/user/proj" [("target", "x")]
      true "/arts").2
      = [Effect.dbInit,
         Effect.createSessionDir "/arts/proj/proj-1700000000"] := by
  decide

/-- C3 (amended): for every input, a dry run records no event row and
never invokes the Step Runner; and when the command resolves and the
arguments validate, it returns success carrying the human-readable
preview of all resolved steps, its only side effects being the
database-initialisation attempt and the creation of the session artifact
directory. -/
theorem c3_dry_run_no_event_no_steps (env : ExecEnv)
    (command_name project_path artifactsBase : String)
    (args : List (String × String)) :
    (eventWrites (execute_command env command_name project_path args true
        artifactsBase).2 = [] ∧
     invokedSteps (execute_command env command_name project_path args true
        artifactsBase).2 = []) ∧
    (∀ command, env.load_command command_name = some command →
      validate_arguments command args = [] →
      execute_command env command_name project_path args true artifactsBase
        = (dryRun command
            (mainContext env command project_path artifactsBase args),
           [Effect.dbInit,
            Effect.createSessionDir
              (sessionDir env project_path artifactsBase)]) ∧
      (execute_command env command_name project_path args true
        artifactsBase).1.output
        = some (dryRunPreview command
            (mainContext env command project_path artifactsBase args))) := by
  constructor
  · unfold execute_command
    cases env.load_command command_name with
    | none => exact ⟨rfl, rfl⟩
    | some command =>
      dsimp only
      cases hv : (validate_arguments command args).isEmpty <;>
        simp [hv]
  · intro command hload hargs
    have he : execute_command env command_name project_path args true
        artifactsBase
        = (dryRun command
            (mainContext env command project_path artifactsBase args),
           [Effect.dbInit,
            Effect.createSessionDir
              (sessionDir env project_path artifactsBase)]) := by
      simp only [execute_command, hload, hargs, List.isEmpty_nil, if_true,
        mainContext]
      rfl
    exact ⟨he, by rw [he]; rfl⟩

/-- Witness for C3's amended theorem at a concrete dry run. -/
theorem c3_witness :
    eventWrites (execute_command sampleEnv "build" "/home/user/proj"
      [("target", "x")] true "/arts").2 = [] ∧
    (execute_command sampleEnv "build" "/home/user/proj" [("target", "x")]
      true "/arts").1.output
      = some (dryRunPreview sampleCommand
          (mainContext sampleEnv sampleCommand "/home/user/proj" "/arts"
            [("target", "x")])) := by
  refine ⟨(c3_dry_run_no_event_no_steps sampleEnv "build" "/home/user/proj"
    "/arts" [("target", "x")]).1.1, ?_⟩
  exact ((c3_dry_run_no_event_no_steps sampleEnv "build" "/home/user/proj"
    "/arts" [("target", "x")]).2 sampleCommand rfl rfl).2

/-! ## Claim C10 — argument defaults are never applied -/

/-- `_validate_arguments`'s accumulating loop, as filter-and-render. -/
theorem validate_arguments_eq (command : CommandDefinition)
    (args : List (String × String)) :
    validate_arguments command args
      = (command.arguments.filter
          (fun a => a.required && !((dictKeys args).contains a.name))).map
          (fun a => s!"Required argument '{a.name}' missing") := by
  unfold validate_arguments
  suffices h : ∀ (l : List CommandArgument) (acc : List String),
      l.foldl (fun errors arg_def =>
        if arg_def.required && !((dictKeys args).contains arg_def.name) then
          errors ++ [s!"Required argument '{arg_def.name}' missing"]
        else errors) acc
      = acc ++ (l.filter
          (fun a => a.required && !((dictKeys args).contains a.name))).map
          (fun a => s!"Required argument '{a.name}' missing") by
    simpa using h command.arguments []
  intro l
  induction l with
  | nil => intro acc; simp
  | cons a rest ih =>
    intro acc
    cases h : (a.required && !((dictKeys args).contains a.name)) with
    | false =>
      simp only [List.foldl_cons, List.filter_cons, h, Bool.false_eq_true,
        if_false]
      exact ih acc
    | true =>
      simp only [List.foldl_cons, List.filter_cons, h, eq_self_iff_true,
        if_true, List.map_cons]
      rw [ih]
      simp

/-- C10: declared argument defaults are never applied.  Validation
passes exactly when every required name is a key of the supplied map;
changing every declared default changes nothing about validation; the
args placed into the execution context are exactly the caller-supplied
map; and an omitted optional argument with a declared default is absent
from the context's args. -/
theorem c10_defaults_never_applied (command : CommandDefinition)
    (env : ExecEnv) (project_path artifactsBase : String)
    (args : List (String × String)) :
    (validate_arguments command args = [] ↔
      ∀ a ∈ command.arguments, a.required = true →
        (dictKeys args).contains a.name = true) ∧
    (∀ f : CommandArgument → Option String,
      validate_arguments
        { command with arguments :=
            command.arguments.map (fun a => { a with default := f a }) } args
        = validate_arguments command args) ∧
    (mainContext env command project_path artifactsBase args).args = args ∧
    (∀ a ∈ command.arguments, a.required = false → ∀ d, a.default = some d →
      (dictKeys args).contains a.name = false →
      (dictKeys (mainContext env command project_path artifactsBase
        args).args).contains a.name = false) := by
  refine ⟨?_, ?_, rfl, ?_⟩
  · rw [validate_arguments_eq]
    simp only [List.map_eq_nil_iff, List.filter_eq_nil_iff]
    constructor
    · intro h a ha hreq
      cases hc : (dictKeys args).contains a.name
      · exact absurd (by rw [hreq, hc]; decide) (h a ha)
      · rfl
    · intro h a ha
      cases hreq : a.required
      · simp [hreq]
      · rw [h a ha hreq]
        decide
  · intro f
    rw [validate_arguments_eq, validate_arguments_eq, List.filter_map,
      List.map_map]
    rfl
  · intro a _ _ d _ hc
    exact hc

/-- Witness for C10: `flavor` is optional with default `debug`; omitted
from the supplied map, it stays absent from the context's args. -/
theorem c10_witness :
    (dictKeys (mainContext sampleEnv sampleCommand "/home/user/proj"
      "/arts" [("target", "x")]).args).contains "flavor" = false := by
  exact (c10_defaults_never_applied sampleCommand sampleEnv
    "/home/user/proj" "/arts" [("target", "x")]).2.2.2
    { name := "flavor", required := false, type := "string",
      default := some "debug", description := none }
    (by decide) rfl "debug" rfl (by decide)

/-! ## Claim C4 — the step runner's result shapes -/

/-- C4 counterexample: for a script step, an exception during execution
yields `Script execution failed: <message>` (executor.py line 99), not
the claimed `(false, "<step> failed: <message>")` — the message does not
name the step (neither as `foo failed: boom` nor in the built-in format
`Step 'foo' failed: boom`). -/
theorem c4_counterexample :
    StepExecutor.execute c4Env "foo" c4Ctx 300
      = (false, "Script execution failed: boom") ∧
    "Script execution failed: boom" ≠ "foo failed: boom" ∧
    "Script execution failed: boom" ≠ "Step 'foo' failed: boom" := by
  refine ⟨rfl, by decide, by decide⟩

/-- C4 (amended): `StepExecutor.execute` always returns a `(success,
output)` pair — the embedding is a total function, mirroring the
`try/except` blocks at executor.py lines 39-48 and 76-99, which catch
every exception — and the failure messages have these shapes: a built-in
timeout gives `Step '<step>' timed out after <timeout>s`; a built-in
exception gives `Step '<step>' failed: <message>`; a script timeout
gives `Script timed out after <timeout>s`; a script exception gives
`Script execution failed: <message>` (without the step name); an
unresolvable step gives `Step '<step>' not found`. -/
theorem c4_step_runner_result_shapes (env : StepEnv) (step_name : String)
    (ctx : Context) (timeout : Nat) :
    (env.builtinRun step_name = some .timedOut →
      StepExecutor.execute env step_name ctx timeout
        = (false, s!"Step '{step_name}' timed out after {timeout}s")) ∧
    (∀ msg, env.builtinRun step_name = some (.raised msg) →
      StepExecutor.execute env step_name ctx timeout
        = (false, s!"Step '{step_name}' failed: {msg}")) ∧
    (env.builtinRun step_name = none →
      ∀ step_path,
        (stepScriptPaths ctx step_name).find? env.fileExists
          = some step_path →
        (env.scriptRun step_path = .timedOut →
          StepExecutor.execute env step_name ctx timeout
            = (false, s!"Script timed out after {timeout}s")) ∧
        (∀ msg, env.scriptRun step_path = .raised msg →
          StepExecutor.execute env step_name ctx timeout
            = (false, s!"Script execution failed: {msg}"))) ∧
    (env.builtinRun step_name = none →
      (stepScriptPaths ctx step_name).find? env.fileExists = none →
      StepExecutor.execute env step_name ctx timeout
        = (false, s!"Step '{step_name}' not found")) := by
  refine ⟨?_, ?_, ?_, ?_⟩
  · intro h
    simp [StepExecutor.execute, h]
  · intro msg h
    simp [StepExecutor.execute, h]
  · intro h p hp
    constructor
    · intro hs
      simp [StepExecutor.execute, StepExecutor.executeScript, h, hp, hs]
    · intro msg hs
      simp [StepExecutor.execute, StepExecutor.executeScript, h, hp, hs]
  · intro h hp
    simp [StepExecutor.execute, h, hp]

/-- Witness for C4's amended theorem: a script step whose subprocess
layer raises. -/
theorem c4_witness :
    StepExecutor.execute c4Env "foo" c4Ctx 300
      = (false, "Script execution failed: boom") := by
  exact ((c4_step_runner_result_shapes c4Env "foo" c4Ctx 300).2.2.1 rfl
    "/home/user/proj/.prj/steps/foo.sh" (by decide)).2 "boom" rfl

/-! ## Second-revision claims — C2, C7, C8, C9 -/

namespace V2

/-- The effect trace of `create_worktree` always begins with the
`mkdir` of the computed worktree path. -/
theorem create_worktree_fx_head (repo : Option RepoState)
    (d b bb p : String) :
    ∃ rest, (create_worktree repo d b bb p).2
      = GitFx.mkdirParents (worktreePathFor d b p) :: rest := by
  cases repo with
  | none => exact ⟨[], rfl⟩
  | some r =>
    simp only [create_worktree]
    cases hb : r.refs.contains bb with
    | false =>
      simp only [hb, Bool.not_false, if_true]
      exact ⟨[GitFx.listRefs], rfl⟩
    | true =>
      simp only [hb, Bool.not_true, Bool.false_eq_true, if_false]
      cases r.worktreeAddResult b (worktreePathFor d b p) bb with
      | ok => exact ⟨_, rfl⟩
      | cmdError e => exact ⟨_, rfl⟩

/-- C9: `create_worktree` creates the target worktree directory (the
worktree dir joined with the branch name, with the optional prefix
applied) as its very first action — before the repository and
base-branch checks — so in particular every call that returns a failed
status has already created the directory on disk. -/
theorem c9_mkdir_happens_before_branch_check (repo : Option RepoState)
    (worktree_dir branch_name base_branch pfx : String) :
    ((create_worktree repo worktree_dir branch_name base_branch
        pfx).2).head?
      = some (GitFx.mkdirParents
          (worktreePathFor worktree_dir branch_name pfx)) ∧
    ((create_worktree repo worktree_dir branch_name base_branch
        pfx).1.lookup "status" = some "failed" →
      GitFx.mkdirParents (worktreePathFor worktree_dir branch_name pfx)
        ∈ (create_worktree repo worktree_dir branch_name base_branch
            pfx).2) := by
  obtain ⟨rest, hrest⟩ := create_worktree_fx_head repo worktree_dir
    branch_name base_branch pfx
  rw [hrest]
  exact ⟨rfl, fun _ => List.mem_cons_self _ _⟩

/-- Witness for C9: a failed call (base branch `main` absent from the
refs) whose trace nevertheless contains the directory creation. -/
theorem c9_witness :
    GitFx.mkdirParents "/home/user/proj-worktrees/feature"
      ∈ (create_worktree (some c2Repo) "/home/user/proj-worktrees"
          "feature" "main" "").2 := by
  have h := (c9_mkdir_happens_before_branch_check (some c2Repo)
    "/home/user/proj-worktrees" "feature" "main" "").2 (by decide)
  simpa using h

/-- C2 (code bug): when the Git collaborator reports a failed worktree
creation — here the default base branch `main` is absent from the
repository's refs — `WorkspaceService.create_workspace` does not return
the graceful `None`: it raises `KeyError('message')` at operations.py
line 40, because the collaborator's structured outcome has keys
`status` and `output` (git_ops.py lines 89-92, 100-113), not `message`.
No workspace row and no event row is written: the database state is
returned unchanged. -/
theorem c2_worktree_failure_raises_keyerror :
    create_workspace (fun s => s) (some c2Repo) "2024-01-02" c2Db
      c2Project "feature" none none
      = (.error (.keyError "message"), c2Db,
         [GitFx.mkdirParents "/home/user/proj-worktrees/feature",
          GitFx.listRefs]) := by
  rfl

/-- C7 (spec-modelled schema): inserting an event or a workspace whose
project id does not reference an existing project row fails with an
integrity error — every connection turns foreign keys on
(manager.py line 28) — and leaves the database unchanged: no row is
added. -/
theorem c7_fk_violation_rejected (db : DbState)
    (now action status : String) (pid : Nat) (wid : Option Nat)
    (ts : Option String) (wname wslug wpath wbranch worigin : String)
    (wart : Option String)
    (h : (projectIds db).contains pid = false) :
    Database.insert_event now db action pid status wid ts
      = (.error .integrityError, db) ∧
    Database.insert_workspace now db wname wslug pid wpath wbranch worigin
      wart = (.error .integrityError, db) := by
  constructor
  · unfold Database.insert_event sqlInsertEvent
    simp only [Database.connection, h, Bool.not_false, Bool.true_or,
      Bool.true_and, eq_self_iff_true, if_true]
  · unfold Database.insert_workspace sqlInsertWorkspace
    simp only [Database.connection, h, Bool.not_false, Bool.true_and,
      eq_self_iff_true, if_true]

/-- Witness for C7: inserting into an empty database under project id
999. -/
theorem c7_witness :
    Database.insert_event "t0"
      { projects := [], workspaces := [], event_log := [] } "created" 999
      "failed" none none
      = (.error .integrityError,
         { projects := [], workspaces := [], event_log := [] }) := by
  exact (c7_fk_violation_rejected
    { projects := [], workspaces := [], event_log := [] } "t0" "created"
    "failed" 999 none none "W" "w" "/w" "b" "" none (by decide)).1

/-! ### Ordering of `get_events_by_project_id` -/

theorem mem_insertByTsDesc (e a : EventRow) (l : List EventRow) :
    a ∈ insertByTsDesc e l ↔ a = e ∨ a ∈ l := by
  induction l with
  | nil => simp [insertByTsDesc]
  | cons x xs ih =>
    simp only [insertByTsDesc]
    split
    · simp [List.mem_cons]
    · simp [List.mem_cons, ih]
      tauto

theorem pairwise_insertByTsDesc (e : EventRow) (l : List EventRow)
    (hl : l.Pairwise (fun a b => b.timestamp ≤ a.timestamp)) :
    (insertByTsDesc e l).Pairwise
      (fun a b => b.timestamp ≤ a.timestamp) := by
  induction l with
  | nil => simp [insertByTsDesc]
  | cons x xs ih =>
    rw [List.pairwise_cons] at hl
    simp only [insertByTsDesc]
    split
    next hle =>
      refine List.Pairwise.cons ?_ (List.Pairwise.cons hl.1 hl.2)
      intro b hb
      rcases List.mem_cons.mp hb with rfl | hbxs
      · exact hle
      · exact le_trans (hl.1 b hbxs) hle
    next hgt =>
      refine List.Pairwise.cons ?_ (ih hl.2)
      intro b hb
      rcases (mem_insertByTsDesc e b xs).mp hb with rfl | hbxs
      · exact (not_le.mp hgt).le
      · exact hl.1 b hbxs

theorem pairwise_sortByTimestampDesc (l : List EventRow) :
    (sortByTimestampDesc l).Pairwise
      (fun a b => b.timestamp ≤ a.timestamp) := by
  induction l with
  | nil => simp [sortByTimestampDesc]
  | cons e es ih => exact pairwise_insertByTsDesc e _ ih

theorem mem_sortByTimestampDesc (a : EventRow) (l : List EventRow) :
    a ∈ sortByTimestampDesc l ↔ a ∈ l := by
  induction l with
  | nil => simp [sortByTimestampDesc]
  | cons e es ih =>
    simp [sortByTimestampDesc, mem_insertByTsDesc, ih]

/-- C8 (amended): `get_events_by_project_id` returns exactly the events
of the given project — an event is returned iff it is in the log and its
`project_id` equals the given id, so events of other projects are never
included — ordered by timestamp descending.  The order is non-strict:
rows with equal timestamps may be adjacent
(see the counterexample to strictness). -/
theorem c8_project_events_filtered_and_sorted (db : DbState) (pid : Nat) :
    (∀ e, e ∈ Database.get_events_by_project_id db pid ↔
      (e ∈ db.event_log ∧ e.project_id = pid)) ∧
    (Database.get_events_by_project_id db pid).Pairwise
      (fun a b => b.timestamp ≤ a.timestamp) := by
  constructor
  · intro e
    unfold Database.get_events_by_project_id
    rw [mem_sortByTimestampDesc, List.mem_filter]
    simp
  · exact pairwise_sortByTimestampDesc _

/-- Witness for C8's amended theorem: a concrete event of project 1 is
returned for project 1. -/
theorem c8_witness :
    ({ id := 1, action := "a", project_id := 1, workspace_id := none,
       status := "success", timestamp := "2024" } : EventRow)
      ∈ Database.get_events_by_project_id c8Db 1 := by
  exact ((c8_project_events_filtered_and_sorted c8Db 1).1 _).mpr
    ⟨by decide, rfl⟩

/-- C8 counterexample: `insert_event` accepts a caller-supplied
timestamp (manager.py lines 47-53), so two events of one project can
carry equal timestamps; the returned list is then not strictly
descending. -/
theorem c8_counterexample :
    ¬ (Database.get_events_by_project_id c8Db 1).Pairwise
        (fun a b => b.timestamp < a.timestamp) := by
  intro h
  have hlog : c8Db.event_log
      = [{ id := 1, action := "a", project_id := 1, workspace_id := none,
           status := "success", timestamp := "2024" },
         { id := 2, action := "b", project_id := 1, workspace_id := none,
           status := "success", timestamp := "2024" }] := by rfl
  have hfilter : List.filter (fun e : EventRow => e.project_id == 1)
      ([{ id := 1, action := "a", project_id := 1, workspace_id := none,
          status := "success", timestamp := "2024" },
        { id := 2, action := "b", project_id := 1, workspace_id := none,
          status := "success", timestamp := "2024" }] : List EventRow)
      = [{ id := 1, action := "a", project_id := 1, workspace_id := none,
           status := "success", timestamp := "2024" },
         { id := 2, action := "b", project_id := 1, workspace_id := none,
           status := "success", timestamp := "2024" }] := by rfl
  have hl : Database.get_events_by_project_id c8Db 1
      = [{ id := 1, action := "a", project_id := 1, workspace_id := none,
           status := "success", timestamp := "2024" },
         { id := 2, action := "b", project_id := 1, workspace_id := none,
           status := "success", timestamp := "2024" }] := by
    unfold Database.get_events_by_project_id
    rw [hlog, hfilter]
    simp only [sortByTimestampDesc, insertByTsDesc, le_refl, if_true]
  rw [hl] at h
  have h12 := (List.pairwise_cons.mp h).1 _ (List.mem_cons_self _ _)
  exact absurd h12 (lt_irrefl _)

end V2

end PruneJuice
